import Mathlib

/-!
# Verification of the MTranServer image-translation pipeline

A shallow embedding of the pipeline implemented in `src/services/image.ts`,
`src/ocr/tesseract.ts`, `src/ocr/renderer.ts`, the image HTTP routes and the
translation cache module, together with theorems settling the specified
behavioural properties.

Modelling conventions:
* JavaScript numbers are modelled as `ℚ`; every numeric value flowing through
  the verified code paths (pixel coordinates, scales, font sizes, confidences)
  is produced by exact arithmetic on integers and the constants `0.6`, `0.75`,
  `0.8`, which are exact in `ℚ`.  `Math.round` and `Math.floor` are modelled
  exactly (round half towards positive infinity, floor).
* Image buffers are treated as abstract tokens (`Buffer := Nat`): the pipeline
  never inspects buffer contents itself, it only routes buffers between the
  external collaborators.
* External collaborators (sharp metadata/resize, the tesseract.js engine, the
  translation engine, the language detector, the simple renderer's compositing
  step) are modelled as oracle functions passed in an `Engines` record,
  mirroring their call signatures at the boundary.  Asynchronous sequential
  code (`await` chains) is modelled as ordinary sequential evaluation; a
  rejected promise from the translation engine is an `Option.none`, a thrown
  error is an `Except.error`.
* The orchestrator additionally returns a trace of `Event`s recording which
  collaborator was invoked with which buffer, so that invocation-count
  properties ("recognition runs exactly once", "no rendering pass occurs")
  are statable.
-/

/-- JavaScript `Math.round`: round half towards positive infinity. -/
def jsRound (q : ℚ) : ℤ := ⌊q + 1/2⌋

/-- JavaScript `String.prototype.trim()`: strip whitespace from both ends.
(Defined structurally over the character list so that it evaluates inside
the kernel; core's `String.trim` is defined by well-founded recursion on
byte positions and does not.) -/
def jsTrim (s : String) : String :=
  ⟨((s.data.dropWhile Char.isWhitespace).reverse.dropWhile
      Char.isWhitespace).reverse⟩

/-- An image buffer, treated as an abstract token. -/
abbrev Buffer := Nat

/-- Fuelled worker for `chunksOf`; the fuel is instantiated with the list
length, which bounds the number of chunks, so the recursion is structural
(and therefore reduces inside the kernel). -/
def chunksOfGo {α : Type _} (k : Nat) : Nat → List α → List (List α)
  | _, [] => []
  | 0, _ :: _ => []
  | fuel + 1, x :: xs => (x :: xs).take k :: chunksOfGo k fuel ((x :: xs).drop k)

/-- Split a list into consecutive chunks of size `k` (the last chunk may be
shorter).  Used both by the batch translator (chunks of 10 blocks) and by the
SHA-1 model (chunks of 64 bytes / 4 bytes). -/
def chunksOf {α : Type _} (k : Nat) (l : List α) : List (List α) :=
  chunksOfGo k l.length l

theorem chunksOfGo_flatten {α : Type _} (k : Nat) (hk : k ≠ 0) :
    ∀ (fuel : Nat) (l : List α), l.length ≤ fuel → (chunksOfGo k fuel l).flatten = l := by
  intro fuel
  induction fuel with
  | zero =>
    intro l hl
    match l with
    | [] => rfl
    | _ :: _ => simp at hl
  | succ fuel ih =>
    intro l hl
    match l with
    | [] => rfl
    | x :: xs =>
      simp only [chunksOfGo, List.flatten_cons]
      rw [ih ((x :: xs).drop k), List.take_append_drop]
      simp only [List.length_drop, List.length_cons] at hl ⊢
      omega

theorem chunksOf_flatten {α : Type _} (k : Nat) (l : List α) (hk : k ≠ 0) :
    (chunksOf k l).flatten = l :=
  chunksOfGo_flatten k hk l.length l le_rfl

namespace Tesseract

/-! ## `src/ocr/tesseract.ts` -/

/-- A pixel rectangle `{x0, y0, x1, y1}`. -/
structure BBox where
  x0 : ℚ
  y0 : ℚ
  x1 : ℚ
  y1 : ℚ
deriving DecidableEq, Repr, Inhabited

/-- `TextBlock` (tesseract.ts lines 4–21): one recognized line of text. -/
structure TextBlock where
  text : String
  confidence : ℚ
  bbox : BBox
  baseline : BBox
  fontSize : ℚ
  lineHeight : ℚ
deriving DecidableEq, Repr, Inhabited

/-- `OCRResult` (tesseract.ts lines 23–28). -/
structure OCRResult where
  text : String
  blocks : List TextBlock
  confidence : ℚ
  language : String
deriving DecidableEq, Repr, Inhabited

/-- `LANG_MAP` (tesseract.ts lines 34–50). -/
def LANG_MAP : List (String × String) :=
  [("en", "eng"), ("zh", "chi_sim"), ("zh-Hans", "chi_sim"), ("zh-Hant", "chi_tra"),
   ("ja", "jpn"), ("ko", "kor"), ("fr", "fra"), ("de", "deu"), ("es", "spa"),
   ("it", "ita"), ("pt", "por"), ("ru", "rus"), ("ar", "ara"), ("vi", "vie"),
   ("th", "tha")]

/-- `mapLanguage` (tesseract.ts lines 52–54): `LANG_MAP[lang] || 'eng'`. -/
def mapLanguage (lang : String) : String :=
  (LANG_MAP.lookup lang).getD "eng"

/-- A tesseract.js worker handle (contents irrelevant to the adapter logic,
modelled as an abstract token). -/
abbrev Worker := Nat

/-- The process-wide module state of tesseract.ts: `let worker`,
`let currentLang` (tesseract.ts lines 30–31).  In a sequential execution the
third slot `initPromise` is `null` whenever `initWorker` is entered (it is
reset in the `finally` block before `initWorker` returns), so it does not
appear in the sequential model and the in-flight-wait branch of `initWorker`
is skipped. -/
structure WorkerState where
  worker : Option Worker
  currentLang : String
deriving DecidableEq, Repr, Inhabited

/-- `initWorker` (tesseract.ts lines 56–99), sequential execution.
`createWorker` is the tesseract.js factory: `Except.error` models a rejected
`createWorker` promise, which propagates out of `initWorker`.  On the
re-initialization path any existing worker is first terminated (the slot is
nulled), then the new worker is recorded together with its language. -/
def initWorker (createWorker : String → Except String Worker)
    (st : WorkerState) (lang : String) : Except String WorkerState :=
  let tessLang := mapLanguage lang
  if st.worker.isSome ∧ st.currentLang = tessLang then
    Except.ok st
  else
    match createWorker tessLang with
    | Except.ok w => Except.ok { worker := some w, currentLang := tessLang }
    | Except.error e => Except.error e

/-- One raw recognized line of the engine result (`result.data.lines[i]`),
with `confidence` on the engine's `[0,100]` scale and an optional baseline. -/
structure RawLine where
  text : String
  confidence : ℚ
  bbox : BBox
  baseline : Option BBox
deriving DecidableEq, Repr, Inhabited

/-- The raw engine result `result.data`; `lines` may be absent. -/
structure RawResult where
  text : String
  lines : Option (List RawLine)
  confidence : ℚ
deriving DecidableEq, Repr, Inhabited

/-- The per-line `TextBlock` construction inside the extraction loop of
`recognizeImage` (tesseract.ts lines 118–144). -/
def lineToBlock (line : RawLine) : TextBlock :=
  let lineHeight := line.bbox.y1 - line.bbox.y0
  let fontSize := max 12 ((jsRound (lineHeight * (3/4)) : ℚ))
  { text := jsTrim line.text
    confidence := line.confidence / 100
    bbox := line.bbox
    baseline :=
      { x0 := ((line.baseline.map BBox.x0).getD line.bbox.x0)
        y0 := ((line.baseline.map BBox.y0).getD line.bbox.y1)
        x1 := ((line.baseline.map BBox.x1).getD line.bbox.x1)
        y1 := ((line.baseline.map BBox.y1).getD line.bbox.y1) }
    fontSize := fontSize
    lineHeight := lineHeight }

/-- The block-extraction loop of `recognizeImage` (tesseract.ts lines
114–146): lines whose trimmed text is empty are skipped (`continue`). -/
def buildBlocks (raw : RawResult) : List TextBlock :=
  match raw.lines with
  | none => []
  | some ls => (ls.filter (fun line => jsTrim line.text ≠ "")).map lineToBlock

/-- The body of `recognizeImage` after the `initWorker` call (tesseract.ts
lines 107–155): the `worker === null` guard throws
`'OCR worker not initialized'`; otherwise recognition runs and the raw result
is converted into an `OCRResult` (confidence normalized from `[0,100]`,
`language` the native code currently active). -/
def recognizeBody (recognize : Worker → Buffer → RawResult)
    (st : WorkerState) (imageBuffer : Buffer) : Except String OCRResult :=
  match st.worker with
  | none => Except.error "OCR worker not initialized"
  | some w =>
    let result := recognize w imageBuffer
    Except.ok
      { text := result.text
        blocks := buildBlocks result
        confidence := result.confidence / 100
        language := st.currentLang }

/-- `recognizeImage` (tesseract.ts lines 101–156), sequential execution:
`await initWorker(language)` then the guarded recognition body, threading the
process-wide state. -/
def recognizeImage (createWorker : String → Except String Worker)
    (recognize : Worker → Buffer → RawResult)
    (st : WorkerState) (imageBuffer : Buffer) (language : String) :
    Except String (WorkerState × OCRResult) :=
  match initWorker createWorker st language with
  | Except.error e => Except.error e
  | Except.ok st' =>
    match recognizeBody recognize st' imageBuffer with
    | Except.error e => Except.error e
    | Except.ok r => Except.ok (st', r)

end Tesseract

namespace Renderer

/-! ## `src/ocr/renderer.ts` -/

/-- `calculateFontSize` (renderer.ts lines 175–196).  The constants `0.6`
and `0.8` are `3/5` and `4/5` in `ℚ`. -/
def calculateFontSize (text : String) (maxWidth maxHeight originalFontSize : ℚ) : ℚ :=
  let avgCharWidth := originalFontSize * (3/5)
  let estimatedWidth := (text.length : ℚ) * avgCharWidth
  let fontSize₁ :=
    if estimatedWidth > maxWidth then
      ((⌊maxWidth / estimatedWidth * originalFontSize⌋ : ℤ) : ℚ)
    else originalFontSize
  let fontSize₂ := min fontSize₁ (maxHeight * (4/5))
  max 8 fontSize₂

/-- The character budget computed by `truncateText` (renderer.ts line 203):
`Math.floor(maxWidth / (fontSize * 0.6))`. -/
def truncMaxChars (maxWidth fontSize : ℚ) : ℤ :=
  ⌊maxWidth / (fontSize * (3/5))⌋

/-- The marker appended by `truncateText`: the string literal at
renderer.ts line 209, whose bytes are `c3 a2 e2 82 ac c2 a6` — the
three-character sequence obtained by decoding the UTF-8 bytes of U+2026
HORIZONTAL ELLIPSIS as a Western-European code page and re-encoding them.
A JavaScript engine reading the file sees exactly these three characters
(the literal's `.length` is 3), so the model uses the same three-character
string. -/
def ellipsisMarker : String := "â€¦"

/-- `truncateText` (renderer.ts lines 201–210).  JavaScript
`text.substring(0, maxChars - 1)` clamps a negative end index to `0`,
matching `Int.toNat`. -/
def truncateText (text : String) (maxWidth fontSize : ℚ) : String :=
  let maxChars := truncMaxChars maxWidth fontSize
  if (text.length : ℤ) ≤ maxChars then text
  else ⟨text.data.take (maxChars - 1).toNat⟩ ++ ellipsisMarker

end Renderer

namespace ImageService

/-! ## `src/services/image.ts` -/

/-- `TranslatedBlock` (renderer.ts lines 5–7): a `TextBlock` plus the
translated text. -/
structure TranslatedBlock extends Tesseract.TextBlock where
  translatedText : String
deriving DecidableEq, Repr, Inhabited

/-- `MAX_IMAGE_DIMENSION` (image.ts line 9). -/
def MAX_IMAGE_DIMENSION : ℚ := 2000

/-- `MAX_CONCURRENT_TRANSLATIONS` (image.ts line 11). -/
def MAX_CONCURRENT_TRANSLATIONS : Nat := 10

/-- The external collaborators of the pipeline, at their call boundaries.
All are deterministic oracles; the pipeline only routes their outputs. -/
structure Engines where
  /-- `sharp(buf).metadata()`: width and height, each possibly absent
  (the code applies `|| 0`). -/
  meta : Buffer → Option ℚ × Option ℚ
  /-- `sharp(buf).resize(w, h, { fit }).toBuffer()`. -/
  resize : Buffer → ℤ → ℤ → String → Buffer
  /-- `recognizeImage(buf, lang)` at the adapter boundary (deterministic
  oracle; the stateful adapter itself is modelled in the `Tesseract`
  namespace). -/
  recognize : Buffer → String → Tesseract.OCRResult
  /-- `detectLanguage(text)`. -/
  detect : String → String
  /-- `translateWithPivot(from, to, text, flag)`; `none` models a rejected
  promise (the `catch` branch fires). -/
  translate : String → String → String → Bool → Option String
  /-- `renderTranslatedImageSimple(buf, blocks)` at its boundary. -/
  render : Buffer → List TranslatedBlock → Buffer

/-- A record of one externally observable invocation made by the
orchestrator, used to state invocation-count properties. -/
inductive Event where
  | preprocess (buf : Buffer)
  | recognize (buf : Buffer) (lang : String)
  | translateCall (text : String)
  | render (buf : Buffer)
deriving DecidableEq, Repr

/-- Whether an event is a recognition-engine invocation. -/
def Event.isRecognize : Event → Bool
  | Event.recognize _ _ => true
  | _ => false

/-- Whether an event is a preprocessing pass. -/
def Event.isPreprocess : Event → Bool
  | Event.preprocess _ => true
  | _ => false

/-- Whether an event is a translation-engine invocation. -/
def Event.isTranslateCall : Event → Bool
  | Event.translateCall _ => true
  | _ => false

/-- Whether an event is a rendering pass. -/
def Event.isRender : Event → Bool
  | Event.render _ => true
  | _ => false

/-- `preprocessImage` (image.ts lines 139–161): scale down if the longest
side exceeds `MAX_IMAGE_DIMENSION`, returning the (possibly resized) buffer
and the scale factor. -/
def preprocessImage (E : Engines) (imageBuffer : Buffer) : Buffer × ℚ :=
  let width := (E.meta imageBuffer).1.getD 0
  let height := (E.meta imageBuffer).2.getD 0
  let maxDim := max width height
  if maxDim ≤ MAX_IMAGE_DIMENSION then
    (imageBuffer, 1)
  else
    let scale := MAX_IMAGE_DIMENSION / maxDim
    let newWidth := jsRound (width * scale)
    let newHeight := jsRound (height * scale)
    (E.resize imageBuffer newWidth newHeight "inside", scale)

/-- The per-block closure inside `translateBlocksParallel` (image.ts lines
178–207): translate, rescale geometry on success when `scale ≠ 1`, fall back
to the original text (with untouched geometry) on failure. -/
def translateOne (E : Engines) (fromLang toLang : String) (scale : ℚ)
    (block : Tesseract.TextBlock) : TranslatedBlock :=
  match E.translate fromLang toLang block.text false with
  | some translated =>
    let scaledBlock : Tesseract.TextBlock :=
      if scale ≠ 1 then
        { block with
          bbox :=
            { x0 := ((jsRound (block.bbox.x0 / scale) : ℤ) : ℚ)
              y0 := ((jsRound (block.bbox.y0 / scale) : ℤ) : ℚ)
              x1 := ((jsRound (block.bbox.x1 / scale) : ℤ) : ℚ)
              y1 := ((jsRound (block.bbox.y1 / scale) : ℤ) : ℚ) }
          fontSize := ((jsRound (block.fontSize / scale) : ℤ) : ℚ)
          lineHeight := ((jsRound (block.lineHeight / scale) : ℤ) : ℚ) }
      else block
    { toTextBlock := scaledBlock, translatedText := translated }
  | none =>
    { toTextBlock := block, translatedText := block.text }

/-- `translateBlocksParallel` (image.ts lines 166–218): the blocks are
processed in consecutive batches of `MAX_CONCURRENT_TRANSLATIONS`; each
batch is mapped through the per-block closure (`Promise.all` preserves the
batch's order) and the batch results are appended in batch order. -/
def translateBlocksParallel (E : Engines) (blocks : List Tesseract.TextBlock)
    (fromLang toLang : String) (scale : ℚ) : List TranslatedBlock :=
  ((chunksOf MAX_CONCURRENT_TRANSLATIONS blocks).map
    (fun batch => batch.map (translateOne E fromLang toLang scale))).flatten

/-- Step 1/2 of `translateImage` (image.ts lines 42–71): resolve the
effective source language and the OCR result, recording the recognition
events.  With `fromLang = "auto"` a quick pass runs with `'eng'`; on a
non-empty trimmed transcription the detector runs and the quick result is
reused exactly when the detected code is `'en'`, otherwise recognition
re-runs with the detected code; on an empty transcription the language
falls back to `'en'` and the (empty) quick result is reused. -/
def resolveOcr (E : Engines) (processedBuffer : Buffer) (fromLang : String) :
    String × Tesseract.OCRResult × List Event :=
  if fromLang = "auto" then
    let quickOcr := E.recognize processedBuffer "eng"
    if jsTrim quickOcr.text ≠ "" then
      let detected := E.detect quickOcr.text
      if detected = "en" then
        (detected, quickOcr, [Event.recognize processedBuffer "eng"])
      else
        (detected, E.recognize processedBuffer detected,
          [Event.recognize processedBuffer "eng",
           Event.recognize processedBuffer detected])
    else
      ("en", quickOcr, [Event.recognize processedBuffer "eng"])
  else
    (fromLang, E.recognize processedBuffer fromLang,
      [Event.recognize processedBuffer fromLang])

/-- `ImageTranslateResult` (image.ts lines 19–26); each entry of
`translations` is `(original, translated)`. -/
structure ImageTranslateResult where
  image : Buffer
  ocrResult : Tesseract.OCRResult
  translations : List (String × String)
deriving DecidableEq, Repr

/-- `translateImage` (image.ts lines 31–112), together with the trace of
collaborator invocations it performs, in order. -/
def translateImage (E : Engines) (imageBuffer : Buffer) (fromLang toLang : String) :
    ImageTranslateResult × List Event :=
  let pp := preprocessImage E imageBuffer
  let processedBuffer := pp.1
  let scale := pp.2
  let step := resolveOcr E processedBuffer fromLang
  let effectiveFromLang := step.1
  let ocrResult := step.2.1
  let events := Event.preprocess imageBuffer :: step.2.2
  if ocrResult.blocks = [] then
    ({ image := imageBuffer, ocrResult := ocrResult, translations := [] }, events)
  else
    let translatedBlocks :=
      translateBlocksParallel E ocrResult.blocks effectiveFromLang toLang scale
    let translations := translatedBlocks.map (fun b => (b.text, b.translatedText))
    let resultImage := E.render imageBuffer translatedBlocks
    ({ image := resultImage, ocrResult := ocrResult, translations := translations },
      events ++ ocrResult.blocks.map (fun b => Event.translateCall b.text)
        ++ [Event.render imageBuffer])

/-- `extractTextFromImage` (image.ts lines 117–134), with its invocation
trace: language auto-detection (quick `'eng'` pass plus detector) followed by
the final recognition — all passes run on the raw `imageBuffer`; no
preprocessing is performed. -/
def extractTextFromImage (E : Engines) (imageBuffer : Buffer) (language : String) :
    Tesseract.OCRResult × List Event :=
  let step : String × List Event :=
    if language = "auto" then
      let quickOcr := E.recognize imageBuffer "eng"
      if jsTrim quickOcr.text ≠ "" then
        (E.detect quickOcr.text, [Event.recognize imageBuffer "eng"])
      else
        ("en", [Event.recognize imageBuffer "eng"])
    else
      (language, [])
  (E.recognize imageBuffer step.1,
    step.2 ++ [Event.recognize imageBuffer step.1])

end ImageService

namespace SHA1

/-! ## SHA-1 (FIPS 180-4)

Model of Node's `crypto.createHash('sha1').update(s).digest('hex')` as used
by the cache module: the standard SHA-1 over the UTF-8 bytes of the input
string, rendered as 40 lowercase hexadecimal characters.  Words are `Nat`s
kept below `2 ^ 32` by explicit reduction. -/

/-- `2 ^ 32`, the word modulus. -/
def M32 : Nat := 4294967296

/-- Rotate a 32-bit word left by `k`. -/
def rotl (k x : Nat) : Nat := ((x <<< k) % M32) ||| (x >>> (32 - k))

/-- UTF-8 encoding of one code point. -/
def encodeChar (n : Nat) : List Nat :=
  if n < 128 then [n]
  else if n < 2048 then [192 ||| (n >>> 6), 128 ||| (n % 64)]
  else if n < 65536 then
    [224 ||| (n >>> 12), 128 ||| ((n >>> 6) % 64), 128 ||| (n % 64)]
  else
    [240 ||| (n >>> 18), 128 ||| ((n >>> 12) % 64), 128 ||| ((n >>> 6) % 64),
     128 ||| (n % 64)]

/-- The UTF-8 bytes of a string (`hash.update(s)` uses UTF-8). -/
def strBytes (s : String) : List Nat :=
  s.data.flatMap (fun c => encodeChar c.toNat)

/-- Message padding: a `0x80` byte, zero bytes until the length is 56 mod
64, then the bit length as 8 big-endian bytes. -/
def padMessage (msg : List Nat) : List Nat :=
  let len := msg.length
  let bitLen := 8 * len
  let zeros := (119 - len % 64) % 64
  msg ++ 128 :: List.replicate zeros 0
    ++ (List.range 8).map (fun i => (bitLen >>> ((7 - i) * 8)) % 256)

/-- A big-endian 32-bit word from four bytes. -/
def bytesToWord (bs : List Nat) : Nat :=
  bs.foldl (fun acc b => acc * 256 + b) 0

/-- The 16 words of one 64-byte chunk. -/
def chunkWords (chunk : List Nat) : Array Nat :=
  ((chunksOf 4 chunk).map bytesToWord).toArray

/-- Extend 16 schedule words to 80. -/
def extendSchedule (ws : Array Nat) : Array Nat :=
  (List.range 64).foldl
    (fun w i =>
      w.push (rotl 1 (((w.getD (i + 13) 0) ^^^ (w.getD (i + 8) 0))
        ^^^ ((w.getD (i + 2) 0) ^^^ (w.getD i 0)))))
    ws

/-- The round function `f_t`. -/
def fRound (t b c d : Nat) : Nat :=
  if t < 20 then (b &&& c) ||| (((M32 - 1) ^^^ b) &&& d)
  else if t < 40 then (b ^^^ c) ^^^ d
  else if t < 60 then ((b &&& c) ||| (b &&& d)) ||| (c &&& d)
  else (b ^^^ c) ^^^ d

/-- The round constant `K_t`. -/
def kConst (t : Nat) : Nat :=
  if t < 20 then 1518500249
  else if t < 40 then 1859775393
  else if t < 60 then 2400959708
  else 3395469782

/-- The five-word running digest. -/
structure Digest where
  h0 : Nat
  h1 : Nat
  h2 : Nat
  h3 : Nat
  h4 : Nat
deriving DecidableEq, Repr

/-- The SHA-1 initialization vector. -/
def initDigest : Digest :=
  ⟨1732584193, 4023233417, 2562383102, 271733878, 3285377520⟩

/-- Compress one 64-byte chunk into the running digest. -/
def compress (d : Digest) (chunk : List Nat) : Digest :=
  let w := extendSchedule (chunkWords chunk)
  let s := (List.range 80).foldl
    (fun (s : Nat × Nat × Nat × Nat × Nat) t =>
      let temp := (rotl 5 s.1 + fRound t s.2.1 s.2.2.1 s.2.2.2.1
        + s.2.2.2.2 + kConst t + w.getD t 0) % M32
      (temp, s.1, rotl 30 s.2.1, s.2.2.1, s.2.2.2.1))
    (d.h0, d.h1, d.h2, d.h3, d.h4)
  ⟨(d.h0 + s.1) % M32, (d.h1 + s.2.1) % M32, (d.h2 + s.2.2.1) % M32,
   (d.h3 + s.2.2.2.1) % M32, (d.h4 + s.2.2.2.2) % M32⟩

/-- The SHA-1 digest of a byte sequence. -/
def sha1Digest (msg : List Nat) : Digest :=
  (chunksOf 64 (padMessage msg)).foldl compress initDigest

/-- One lowercase hexadecimal digit. -/
def hexDigitChar (n : Nat) : Char :=
  "0123456789abcdef".data.getD n '0'

/-- Whether a character is a lowercase hexadecimal digit. -/
def isHexChar (c : Char) : Bool :=
  "0123456789abcdef".data.contains c

/-- A word as exactly eight hexadecimal characters (big-endian nibbles). -/
def wordToHex (w : Nat) : List Char :=
  (List.range 8).map (fun i => hexDigitChar ((w >>> ((7 - i) * 4)) % 16))

/-- `crypto.createHash('sha1').update(s).digest('hex')`. -/
def sha1Hex (s : String) : String :=
  let d := sha1Digest (strBytes s)
  ⟨wordToHex d.h0 ++ wordToHex d.h1 ++ wordToHex d.h2
    ++ wordToHex d.h3 ++ wordToHex d.h4⟩

end SHA1

namespace Cache

/-! ## The translation cache module (`src/unnamed/part_001`) -/

/-- `SIMPLE_KEY_THRESHOLD` (cache module line 14). -/
def SIMPLE_KEY_THRESHOLD : Nat := 200

/-- `getCacheKey` (cache module lines 20–32).  The arguments are modelled
after JavaScript stringification (`args.map(arg => String(arg))`), i.e. as
the list of their string forms; they are joined with the `'\0'` separator.
A joined key of length at most `SIMPLE_KEY_THRESHOLD` is used literally,
otherwise its SHA-1 hex digest is the key. -/
def getCacheKey (args : List String) : String :=
  let simpleKey := String.intercalate "\x00" args
  if simpleKey.length ≤ SIMPLE_KEY_THRESHOLD then simpleKey
  else SHA1.sha1Hex simpleKey

end Cache

/-!
## Helper lemmas
-/

theorem translateBlocksParallel_eq_map (E : ImageService.Engines)
    (blocks : List Tesseract.TextBlock) (fromLang toLang : String) (scale : ℚ) :
    ImageService.translateBlocksParallel E blocks fromLang toLang scale
      = blocks.map (ImageService.translateOne E fromLang toLang scale) := by
  unfold ImageService.translateBlocksParallel
  rw [← List.map_flatten, chunksOf_flatten _ _ (by decide)]

theorem sha1_wordToHex_length (w : Nat) : (SHA1.wordToHex w).length = 8 := by
  simp [SHA1.wordToHex]

theorem sha1Hex_length (s : String) : (SHA1.sha1Hex s).length = 40 := by
  simp [SHA1.sha1Hex, String.length, sha1_wordToHex_length]

theorem hexDigitChar_isHex {n : Nat} (h : n < 16) : SHA1.isHexChar (SHA1.hexDigitChar n) := by
  interval_cases n <;> decide

theorem sha1_wordToHex_isHex (w : Nat) : ∀ c ∈ SHA1.wordToHex w, SHA1.isHexChar c := by
  intro c hc
  simp only [SHA1.wordToHex, List.mem_map, List.mem_range] at hc
  obtain ⟨i, -, rfl⟩ := hc
  exact hexDigitChar_isHex (Nat.mod_lt _ (by norm_num))

theorem sha1Hex_isHex (s : String) : ∀ c ∈ (SHA1.sha1Hex s).data, SHA1.isHexChar c := by
  intro c hc
  simp only [SHA1.sha1Hex, List.mem_append] at hc
  rcases hc with ((((h | h) | h) | h) | h) <;> exact sha1_wordToHex_isHex _ c h

set_option maxRecDepth 10000 in
/-- Sanity check of the SHA-1 model against the FIPS 180-4 test vector for
the message `"abc"`. -/
theorem sha1Hex_test_vector :
    SHA1.sha1Hex "abc" = "a9993e364706816aba3e25717850c26c9cd0d89d" := by
  decide

/-!
## Claims
-/

/-- C2: for every input list of `TextBlock`s and every pattern of per-block
translation success or failure, `translateBlocksParallel` returns a list of
the same length whose order matches the input order; for each block whose
translation call fails, the output element has `translatedText` equal to
that block's original text and every other field unchanged (geometry is not
rescaled even when `scale ≠ 1`), and no single block's failure aborts the
batch. -/
theorem C2_batch_failure_isolation (E : ImageService.Engines)
    (blocks : List Tesseract.TextBlock) (fromLang toLang : String) (scale : ℚ) :
    (ImageService.translateBlocksParallel E blocks fromLang toLang scale).length
      = blocks.length ∧
    ∀ (i : Nat) (b : Tesseract.TextBlock), blocks[i]? = some b →
      E.translate fromLang toLang b.text false = none →
      (ImageService.translateBlocksParallel E blocks fromLang toLang scale)[i]?
        = some { toTextBlock := b, translatedText := b.text } := by
  constructor
  · rw [translateBlocksParallel_eq_map, List.length_map]
  · intro i b hb htr
    rw [translateBlocksParallel_eq_map, List.getElem?_map, hb]
    simp [ImageService.translateOne, htr]

/-- C3: for every block whose translation call succeeds, if `scale ≠ 1` the
emitted `TranslatedBlock` has each bbox coordinate equal to
`round(original / scale)` and `fontSize`/`lineHeight` equal to
`round(original / scale)`, while `text`, `confidence` and `baseline` are
carried over identical to the source block (the baseline is not rescaled);
if `scale = 1`, every field except `translatedText` is identical to the
source block. -/
theorem C3_success_rescale (E : ImageService.Engines)
    (blocks : List Tesseract.TextBlock) (fromLang toLang : String) (scale : ℚ) :
    ∀ (i : Nat) (b : Tesseract.TextBlock) (t : String), blocks[i]? = some b →
      E.translate fromLang toLang b.text false = some t →
      ∃ r, (ImageService.translateBlocksParallel E blocks fromLang toLang scale)[i]?
          = some r ∧
        r.translatedText = t ∧ r.text = b.text ∧ r.confidence = b.confidence ∧
        r.baseline = b.baseline ∧
        (scale = 1 → r.toTextBlock = b) ∧
        (scale ≠ 1 →
          r.bbox.x0 = ((jsRound (b.bbox.x0 / scale) : ℤ) : ℚ) ∧
          r.bbox.y0 = ((jsRound (b.bbox.y0 / scale) : ℤ) : ℚ) ∧
          r.bbox.x1 = ((jsRound (b.bbox.x1 / scale) : ℤ) : ℚ) ∧
          r.bbox.y1 = ((jsRound (b.bbox.y1 / scale) : ℤ) : ℚ) ∧
          r.fontSize = ((jsRound (b.fontSize / scale) : ℤ) : ℚ) ∧
          r.lineHeight = ((jsRound (b.lineHeight / scale) : ℤ) : ℚ)) := by
  intro i b t hb htr
  refine ⟨ImageService.translateOne E fromLang toLang scale b, ?_, ?_⟩
  · rw [translateBlocksParallel_eq_map, List.getElem?_map, hb]
    rfl
  · by_cases hs : scale = 1
    · simp [ImageService.translateOne, htr, hs]
    · simp [ImageService.translateOne, htr, hs]

/-- C4: for every image buffer, the preprocessor returns the identical
buffer with `scale = 1` when `max(width, height) ≤ 2000`; otherwise it
returns `scale = 2000 / max(width, height)` and the buffer resized to
`round(width * scale)` by `round(height * scale)` with fit `'inside'`. -/
theorem C4_preprocess (E : ImageService.Engines) (imageBuffer : Buffer) :
    (max ((E.meta imageBuffer).1.getD 0) ((E.meta imageBuffer).2.getD 0) ≤ 2000 →
      ImageService.preprocessImage E imageBuffer = (imageBuffer, 1)) ∧
    (2000 < max ((E.meta imageBuffer).1.getD 0) ((E.meta imageBuffer).2.getD 0) →
      ImageService.preprocessImage E imageBuffer =
        (E.resize imageBuffer
          (jsRound ((E.meta imageBuffer).1.getD 0
            * (2000 / max ((E.meta imageBuffer).1.getD 0) ((E.meta imageBuffer).2.getD 0))))
          (jsRound ((E.meta imageBuffer).2.getD 0
            * (2000 / max ((E.meta imageBuffer).1.getD 0) ((E.meta imageBuffer).2.getD 0))))
          "inside",
         2000 / max ((E.meta imageBuffer).1.getD 0) ((E.meta imageBuffer).2.getD 0))) := by
  constructor
  · intro h
    simp [ImageService.preprocessImage, ImageService.MAX_IMAGE_DIMENSION, h]
  · intro h
    simp [ImageService.preprocessImage, ImageService.MAX_IMAGE_DIMENSION, not_le.mpr h]

/-- C6 counterexample: with text `"aaaa"`, `blockWidth = 2`,
`blockHeight = 100` and original font size `5`, the estimated width
`4 * 5 * 0.6 = 12` exceeds the block width, yet `calculateFontSize` returns
`8`, which is not strictly less than the original font size `5` (the floor
of 8 overrides the proportional shrink), refuting the claim as stated. -/
theorem C6_counterexample :
    (("aaaa".length : ℚ) * ((5 : ℚ) * (3/5)) > 2) ∧
    Renderer.calculateFontSize "aaaa" 2 100 5 = 8 ∧
    ¬ Renderer.calculateFontSize "aaaa" 2 100 5 < 5 := by
  have hlen : (("aaaa".length : Nat) : ℚ) = 4 := by
    norm_num [show "aaaa".length = 4 from rfl]
  have hval : Renderer.calculateFontSize "aaaa" 2 100 5 = 8 := by
    simp only [Renderer.calculateFontSize, hlen]
    rw [if_pos (by norm_num : (4 : ℚ) * ((5 : ℚ) * (3/5)) > 2)]
    have hfloor : ⌊(2 : ℚ) / (4 * (5 * (3/5))) * 5⌋ = 0 := by
      rw [Int.floor_eq_iff]
      constructor <;> norm_num
    rw [hfloor, show ((0 : ℤ) : ℚ) = 0 from rfl,
      min_eq_left (by norm_num : (0 : ℚ) ≤ 100 * (4/5)),
      max_eq_left (by norm_num : (0 : ℚ) ≤ 8)]
  exact ⟨by rw [hlen]; norm_num, hval, by rw [hval]; norm_num⟩

/-- C6 (amended): for every text, block width and block height, and every
original font size strictly greater than 8: if the estimated width
`len(text) * fontSize * 0.6` exceeds the (positive) block width, then
`calculateFontSize` returns a font size strictly less than the original and
bounded below by 8; the result is furthermore at most `0.8 * blockHeight`
whenever that bound is itself at least the floor of 8 (for smaller blocks
the floor of 8 overrides the height clamp). -/
theorem C6_font_fit (text : String) (maxWidth maxHeight originalFontSize : ℚ)
    (hw : 0 < maxWidth)
    (hest : maxWidth < (text.length : ℚ) * (originalFontSize * (3/5)))
    (horig : 8 < originalFontSize) :
    Renderer.calculateFontSize text maxWidth maxHeight originalFontSize
      < originalFontSize ∧
    8 ≤ Renderer.calculateFontSize text maxWidth maxHeight originalFontSize ∧
    (8 ≤ maxHeight * (4/5) →
      Renderer.calculateFontSize text maxWidth maxHeight originalFontSize
        ≤ maxHeight * (4/5)) := by
  have hestpos : (0 : ℚ) < (text.length : ℚ) * (originalFontSize * (3/5)) :=
    lt_trans hw hest
  have hlt1 : maxWidth / ((text.length : ℚ) * (originalFontSize * (3/5))) < 1 :=
    (div_lt_one hestpos).mpr hest
  have hfs :
      ((⌊maxWidth / ((text.length : ℚ) * (originalFontSize * (3/5)))
          * originalFontSize⌋ : ℤ) : ℚ) < originalFontSize := by
    calc ((⌊maxWidth / ((text.length : ℚ) * (originalFontSize * (3/5)))
            * originalFontSize⌋ : ℤ) : ℚ)
        ≤ maxWidth / ((text.length : ℚ) * (originalFontSize * (3/5)))
            * originalFontSize := Int.floor_le _
      _ < 1 * originalFontSize :=
          mul_lt_mul_of_pos_right hlt1 (by linarith)
      _ = originalFontSize := one_mul _
  simp only [Renderer.calculateFontSize, if_pos hest]
  refine ⟨?_, le_max_left _ _, ?_⟩
  · exact max_lt (by linarith) (lt_of_le_of_lt (min_le_left _ _) hfs)
  · intro h8
    exact max_le h8 (min_le_right _ _)

/-- C6 witness: a concrete instance of `C6_font_fit` — text of 10
characters, original font size 10, block 30×100; the estimate `60` exceeds
the width `30` and the returned size `8` is strictly below `10`, at least
`8`, and within the height clamp `80`. -/
theorem C6_font_fit_witness :
    Renderer.calculateFontSize "aaaaaaaaaa" 30 100 10 < 10 ∧
    8 ≤ Renderer.calculateFontSize "aaaaaaaaaa" 30 100 10 ∧
    Renderer.calculateFontSize "aaaaaaaaaa" 30 100 10 ≤ 100 * (4/5) :=
  ⟨(C6_font_fit "aaaaaaaaaa" 30 100 10 (by norm_num)
      (by norm_num [show "aaaaaaaaaa".length = 10 from rfl]) (by norm_num)).1,
   (C6_font_fit "aaaaaaaaaa" 30 100 10 (by norm_num)
      (by norm_num [show "aaaaaaaaaa".length = 10 from rfl]) (by norm_num)).2.1,
   (C6_font_fit "aaaaaaaaaa" 30 100 10 (by norm_num)
      (by norm_num [show "aaaaaaaaaa".length = 10 from rfl]) (by norm_num)).2.2
     (by norm_num)⟩

/-- C7 counterexample: with block width 100 and font size 10 the character
budget is `maxChars = 16`; a 21-character text is truncated to its first 15
characters followed by the marker string of renderer.ts line 209, which is
the three-character double-encoded sequence, not a single ellipsis
character — so the total length is `18 = maxChars + 2`, not `maxChars`,
refuting the claim as stated.  The edge `maxChars = 0` (block width 1 at
the renderer's minimum font size 8) likewise returns the bare marker, of
length 3. -/
theorem C7_counterexample :
    Renderer.truncMaxChars 100 10 = 16 ∧
    Renderer.ellipsisMarker.length = 3 ∧
    ((Renderer.truncateText "aaaaaaaaaaaaaaaaaaaaa" 100 10).length : ℤ)
      = Renderer.truncMaxChars 100 10 + 2 ∧
    ((Renderer.truncateText "aaaaaaaaaaaaaaaaaaaaa" 100 10).length : ℤ)
      ≠ Renderer.truncMaxChars 100 10 ∧
    Renderer.truncMaxChars 1 8 = 0 ∧
    Renderer.truncateText "ab" 1 8 = Renderer.ellipsisMarker := by
  have h16 : Renderer.truncMaxChars 100 10 = 16 := by
    rw [Renderer.truncMaxChars, Int.floor_eq_iff]
    constructor <;> norm_num
  have h0 : Renderer.truncMaxChars 1 8 = 0 := by
    rw [Renderer.truncMaxChars, Int.floor_eq_iff]
    constructor <;> norm_num
  have hlen : (Renderer.truncateText "aaaaaaaaaaaaaaaaaaaaa" 100 10).length = 18 := by
    simp only [Renderer.truncateText, h16]
    rw [if_neg (by decide : ¬ (("aaaaaaaaaaaaaaaaaaaaa".length : ℤ) ≤ 16))]
    rfl
  have heq : Renderer.truncateText "ab" 1 8 = Renderer.ellipsisMarker := by
    simp only [Renderer.truncateText, h0]
    rw [if_neg (by decide : ¬ (("ab".length : ℤ) ≤ 0))]
    rfl
  refine ⟨h16, rfl, ?_, ?_, h0, heq⟩
  · rw [hlen, h16]
    decide
  · rw [hlen, h16]
    decide

/-- C7 (amended): in the simple rendering strategy, letting
`maxChars = floor(blockWidth / (fontSize * 0.6))`, and provided
`maxChars ≥ 1`: a text that cannot fit at the final size is truncated to
its first `maxChars - 1` characters — one character slot is reserved for
the marker — followed by the marker string of renderer.ts line 209; since
that literal is the three-character double-encoded ellipsis sequence rather
than a single character, the total length is `maxChars + 2`, not
`maxChars`.  Any text of length `≤ maxChars` is drawn unchanged.  (When
`maxChars = 0` the truncated result is the bare marker, of length 3 — see
the counterexample.) -/
theorem C7_truncate (text : String) (maxWidth fontSize : ℚ)
    (hm : 1 ≤ Renderer.truncMaxChars maxWidth fontSize) :
    ((text.length : ℤ) ≤ Renderer.truncMaxChars maxWidth fontSize →
      Renderer.truncateText text maxWidth fontSize = text) ∧
    (Renderer.truncMaxChars maxWidth fontSize < (text.length : ℤ) →
      Renderer.truncateText text maxWidth fontSize
        = ⟨text.data.take (Renderer.truncMaxChars maxWidth fontSize - 1).toNat⟩
            ++ Renderer.ellipsisMarker ∧
      ((Renderer.truncateText text maxWidth fontSize).length : ℤ)
        = Renderer.truncMaxChars maxWidth fontSize + 2) := by
  constructor
  · intro h
    simp only [Renderer.truncateText, if_pos h]
  · intro h
    have heq : Renderer.truncateText text maxWidth fontSize
        = ⟨text.data.take (Renderer.truncMaxChars maxWidth fontSize - 1).toNat⟩
            ++ Renderer.ellipsisMarker := by
      simp only [Renderer.truncateText, if_neg (not_le.mpr h)]
    refine ⟨heq, ?_⟩
    rw [heq, String.length_append, String.length_mk, List.length_take,
      show Renderer.ellipsisMarker.length = 3 from rfl]
    have h2 : text.data.length = text.length := rfl
    rw [h2]
    have h1 : ((Renderer.truncMaxChars maxWidth fontSize - 1).toNat : ℤ)
        = Renderer.truncMaxChars maxWidth fontSize - 1 :=
      Int.toNat_of_nonneg (by omega)
    push_cast
    omega

/-- C7 witness: a concrete instance of `C7_truncate` with block width 100
and font size 10, so `maxChars = 16`: a 2-character text is unchanged, a
21-character text is truncated to total length `16 + 2`. -/
theorem C7_truncate_witness :
    Renderer.truncateText "ab" 100 10 = "ab" ∧
    Renderer.truncateText "aaaaaaaaaaaaaaaaaaaaa" 100 10
      = ⟨"aaaaaaaaaaaaaaaaaaaaa".data.take (Renderer.truncMaxChars 100 10 - 1).toNat⟩
          ++ Renderer.ellipsisMarker ∧
    ((Renderer.truncateText "aaaaaaaaaaaaaaaaaaaaa" 100 10).length : ℤ)
      = Renderer.truncMaxChars 100 10 + 2 := by
  have h16 : Renderer.truncMaxChars 100 10 = 16 := by
    rw [Renderer.truncMaxChars, Int.floor_eq_iff]
    constructor <;> norm_num
  refine ⟨(C7_truncate "ab" 100 10 (by rw [h16]; decide)).1 (by rw [h16]; decide),
    (C7_truncate "aaaaaaaaaaaaaaaaaaaaa" 100 10 (by rw [h16]; decide)).2
      (by rw [h16]; decide)⟩

/-- C8: for every argument list, the cache key equals the arguments joined
with the `'\0'` separator when the joined string's length is at most 200
characters, and otherwise equals the 40-character hexadecimal SHA-1 digest
of the joined string; identical argument tuples always produce identical
keys. -/
theorem C8_cache_key (args : List String) :
    ((String.intercalate "\x00" args).length ≤ 200 →
      Cache.getCacheKey args = String.intercalate "\x00" args) ∧
    (200 < (String.intercalate "\x00" args).length →
      Cache.getCacheKey args = SHA1.sha1Hex (String.intercalate "\x00" args) ∧
      (Cache.getCacheKey args).length = 40 ∧
      ∀ c ∈ (Cache.getCacheKey args).data, SHA1.isHexChar c) ∧
    (∀ args₂, args = args₂ → Cache.getCacheKey args = Cache.getCacheKey args₂) := by
  refine ⟨?_, ?_, ?_⟩
  · intro h
    simp only [Cache.getCacheKey, Cache.SIMPLE_KEY_THRESHOLD, if_pos h]
  · intro h
    have hkey : Cache.getCacheKey args
        = SHA1.sha1Hex (String.intercalate "\x00" args) := by
      simp only [Cache.getCacheKey, Cache.SIMPLE_KEY_THRESHOLD, if_neg (not_le.mpr h)]
    exact ⟨hkey, by rw [hkey]; exact sha1Hex_length _,
      by rw [hkey]; exact sha1Hex_isHex _⟩
  · intro args₂ he
    rw [he]

/-- C8 witness: a short tuple (joined length 11) keys to the literal joined
string; a long tuple (joined length 500) keys to the SHA-1 digest, of
length 40. -/
theorem C8_cache_key_witness :
    Cache.getCacheKey ["hello", "world"]
      = String.intercalate "\x00" ["hello", "world"] ∧
    Cache.getCacheKey [String.mk (List.replicate 500 'a')]
      = SHA1.sha1Hex (String.intercalate "\x00" [String.mk (List.replicate 500 'a')]) ∧
    (Cache.getCacheKey [String.mk (List.replicate 500 'a')]).length = 40 := by
  have h500 : 200 < (String.intercalate "\x00" [String.mk (List.replicate 500 'a')]).length := by
    rw [show String.intercalate "\x00" [String.mk (List.replicate 500 'a')]
      = String.mk (List.replicate 500 'a') from rfl, String.length_mk,
      List.length_replicate]
    norm_num
  exact ⟨(C8_cache_key ["hello", "world"]).1 (by decide),
    ((C8_cache_key [String.mk (List.replicate 500 'a')]).2.1 h500).1,
    ((C8_cache_key [String.mk (List.replicate 500 'a')]).2.1 h500).2.1⟩

/-- C9: in a sequential execution, whenever `initWorker` returns without
throwing, the process-wide worker slot is non-null; when the worker slot is
absent the recognition body fails loudly with the
`'OCR worker not initialized'` error rather than silently returning an
empty result; consequently any error returned by `recognizeImage` comes
from `initWorker` itself — the not-initialized branch is unreachable after
a successful `initWorker` call. -/
theorem C9_worker_guard :
    (∀ (createWorker : String → Except String Tesseract.Worker)
        (st : Tesseract.WorkerState) (lang : String) (st' : Tesseract.WorkerState),
      Tesseract.initWorker createWorker st lang = Except.ok st' →
      st'.worker.isSome) ∧
    (∀ (recognize : Tesseract.Worker → Buffer → Tesseract.RawResult)
        (st : Tesseract.WorkerState) (buf : Buffer),
      st.worker = none →
      Tesseract.recognizeBody recognize st buf
        = Except.error "OCR worker not initialized") ∧
    (∀ (createWorker : String → Except String Tesseract.Worker)
        (recognize : Tesseract.Worker → Buffer → Tesseract.RawResult)
        (st : Tesseract.WorkerState) (buf : Buffer) (lang e : String),
      Tesseract.recognizeImage createWorker recognize st buf lang
        = Except.error e →
      Tesseract.initWorker createWorker st lang = Except.error e) := by
  have part1 : ∀ (createWorker : String → Except String Tesseract.Worker)
      (st : Tesseract.WorkerState) (lang : String) (st' : Tesseract.WorkerState),
      Tesseract.initWorker createWorker st lang = Except.ok st' →
      st'.worker.isSome := by
    intro createWorker st lang st' h
    by_cases hc : st.worker.isSome ∧ st.currentLang = Tesseract.mapLanguage lang
    · simp only [Tesseract.initWorker, if_pos hc] at h
      cases h
      exact hc.1
    · simp only [Tesseract.initWorker, if_neg hc] at h
      cases hcr : createWorker (Tesseract.mapLanguage lang) with
      | ok w => rw [hcr] at h; cases h; rfl
      | error e => rw [hcr] at h; cases h
  have part2 : ∀ (recognize : Tesseract.Worker → Buffer → Tesseract.RawResult)
      (st : Tesseract.WorkerState) (buf : Buffer),
      st.worker = none →
      Tesseract.recognizeBody recognize st buf
        = Except.error "OCR worker not initialized" := by
    intro recognize st buf h
    simp only [Tesseract.recognizeBody, h]
  refine ⟨part1, part2, ?_⟩
  intro createWorker recognize st buf lang e h
  cases hiw : Tesseract.initWorker createWorker st lang with
  | error e' =>
    unfold Tesseract.recognizeImage at h
    rw [hiw] at h
    cases h
    rfl
  | ok st' =>
    obtain ⟨w, hw⟩ := Option.isSome_iff_exists.mp (part1 createWorker st lang st' hiw)
    unfold Tesseract.recognizeImage at h
    rw [hiw] at h
    simp only [Tesseract.recognizeBody, hw] at h
    exact Except.noConfusion h

/-- C9 witness: a successful initialization from the empty state yields a
non-null worker; the recognition body on a null-worker state returns the
not-initialized error; a failing `createWorker` propagates its own error
through `recognizeImage`. -/
theorem C9_worker_guard_witness :
    (Tesseract.WorkerState.mk (some 7) "eng").worker.isSome ∧
    Tesseract.recognizeBody (fun _ _ => ⟨"", none, 0⟩) ⟨none, ""⟩ 0
      = Except.error "OCR worker not initialized" ∧
    Tesseract.initWorker (fun _ => Except.error "boom") ⟨none, ""⟩ "en"
      = Except.error "boom" :=
  ⟨C9_worker_guard.1 (fun _ => Except.ok 7) ⟨none, ""⟩ "en" ⟨some 7, "eng"⟩ rfl,
   C9_worker_guard.2.1 (fun _ _ => ⟨"", none, 0⟩) ⟨none, ""⟩ 0 rfl,
   C9_worker_guard.2.2 (fun _ => Except.error "boom") (fun _ _ => ⟨"", none, 0⟩)
     ⟨none, ""⟩ 0 "en" "boom" rfl⟩

theorem resolveOcr_events_mem (E : ImageService.Engines) (buf : Buffer)
    (fromLang : String) :
    ∀ e ∈ (ImageService.resolveOcr E buf fromLang).2.2,
      ∃ l, e = ImageService.Event.recognize buf l := by
  intro e he
  unfold ImageService.resolveOcr at he
  by_cases h1 : fromLang = "auto"
  · rw [if_pos h1] at he
    by_cases h2 : jsTrim (E.recognize buf "eng").text ≠ ""
    · rw [if_pos h2] at he
      by_cases h3 : E.detect (E.recognize buf "eng").text = "en"
      · rw [if_pos h3] at he
        simp only [List.mem_singleton] at he
        exact ⟨"eng", he⟩
      · rw [if_neg h3] at he
        simp only [List.mem_cons, List.mem_singleton, List.not_mem_nil, or_false] at he
        rcases he with he | he
        · exact ⟨"eng", he⟩
        · exact ⟨E.detect (E.recognize buf "eng").text, he⟩
    · rw [if_neg h2] at he
      simp only [List.mem_singleton] at he
      exact ⟨"eng", he⟩
  · rw [if_neg h1] at he
    simp only [List.mem_singleton] at he
    exact ⟨fromLang, he⟩

theorem resolveOcr_auto_nonempty (E : ImageService.Engines) (buf : Buffer)
    (ht : jsTrim (E.recognize buf "eng").text ≠ "") :
    ImageService.resolveOcr E buf "auto" =
      if E.detect (E.recognize buf "eng").text = "en" then
        (E.detect (E.recognize buf "eng").text, E.recognize buf "eng",
         [ImageService.Event.recognize buf "eng"])
      else
        (E.detect (E.recognize buf "eng").text,
         E.recognize buf (E.detect (E.recognize buf "eng").text),
         [ImageService.Event.recognize buf "eng",
          ImageService.Event.recognize buf (E.detect (E.recognize buf "eng").text)]) := by
  unfold ImageService.resolveOcr
  rw [if_pos rfl, if_pos ht]

theorem countP_recognize_translateCalls (blocks : List Tesseract.TextBlock) :
    (blocks.map (fun b => ImageService.Event.translateCall b.text)).countP
      ImageService.Event.isRecognize = 0 := by
  induction blocks with
  | nil => rfl
  | cons b bs ih =>
    simp only [List.map_cons, List.countP_cons, ih]
    rfl

theorem translateImage_proj (E : ImageService.Engines) (imageBuffer : Buffer)
    (fromLang toLang : String) :
    (ImageService.translateImage E imageBuffer fromLang toLang).1.ocrResult
      = (ImageService.resolveOcr E (ImageService.preprocessImage E imageBuffer).1
          fromLang).2.1 ∧
    (ImageService.translateImage E imageBuffer fromLang toLang).2.countP
        ImageService.Event.isRecognize
      = (ImageService.resolveOcr E (ImageService.preprocessImage E imageBuffer).1
          fromLang).2.2.countP ImageService.Event.isRecognize := by
  by_cases hb : (ImageService.resolveOcr E (ImageService.preprocessImage E imageBuffer).1
      fromLang).2.1.blocks = []
  · simp [ImageService.translateImage, hb, List.countP_cons,
      ImageService.Event.isRecognize]
  · simp [ImageService.translateImage, hb, List.countP_cons, List.countP_append,
      countP_recognize_translateCalls, ImageService.Event.isRecognize]

/-- A concrete engine assembly used to instantiate the pipeline theorems at
specific inputs: fixed image metadata `w × h`, a per-language recognition
oracle, a constant-output detector and a per-text translation oracle. -/
def mkEngines (w h : ℚ) (ocr : String → Tesseract.OCRResult) (detected : String)
    (tr : String → Option String) : ImageService.Engines :=
  { meta := fun _ => (some w, some h)
    resize := fun b _ _ _ => b + 1
    recognize := fun _ lang => ocr lang
    detect := fun _ => detected
    translate := fun _ _ t _ => tr t
    render := fun b _ => b + 2 }

/-- C1 counterexample: with `fromLang = "auto"`, a non-empty trimmed
transcription, and detector output `"nl"` — an unmapped code whose native
mapping equals the default language's mapped native code (`'eng'`) — the
pipeline still performs a second recognition pass: the code compares the
detected code with the literal `'en'`, not mapped native codes, so the
claimed "exactly once iff native codes agree" fails at this input. -/
theorem C1_counterexample :
    Tesseract.mapLanguage "nl" = Tesseract.mapLanguage "eng" ∧
    ((ImageService.translateImage
        (mkEngines 100 50
          (fun lang => { text := "hola", blocks := [], confidence := 1, language := lang })
          "nl" some)
        0 "auto" "en").2.countP ImageService.Event.isRecognize) = 2 ∧
    ¬ (((ImageService.translateImage
        (mkEngines 100 50
          (fun lang => { text := "hola", blocks := [], confidence := 1, language := lang })
          "nl" some)
        0 "auto" "en").2.countP ImageService.Event.isRecognize) = 1
      ↔ Tesseract.mapLanguage "nl" = Tesseract.mapLanguage "eng") := by
  refine ⟨rfl, by rfl, fun hiff => ?_⟩
  have h2 : ((ImageService.translateImage
      (mkEngines 100 50
        (fun lang => { text := "hola", blocks := [], confidence := 1, language := lang })
        "nl" some)
      0 "auto" "en").2.countP ImageService.Event.isRecognize) = 2 := by rfl
  rw [hiff.mpr rfl] at h2
  exact absurd h2 (by decide)

/-- C1 (amended): in `translateImage` with `fromLang = "auto"`, when the
quick pass's trimmed transcription is non-empty, recognition is invoked
exactly once for the request if and only if the detected language code is
literally `"en"`; in that case the already-computed quick OCR result is
reused, and otherwise recognition is re-run on the processed buffer with the
detected language (two invocations), even when the detected code maps to the
same native code `'eng'`. -/
theorem C1_auto_reuse (E : ImageService.Engines) (imageBuffer : Buffer)
    (toLang : String)
    (ht : jsTrim (E.recognize (ImageService.preprocessImage E imageBuffer).1
      "eng").text ≠ "") :
    ((ImageService.translateImage E imageBuffer "auto" toLang).2.countP
        ImageService.Event.isRecognize = 1
      ↔ E.detect (E.recognize (ImageService.preprocessImage E imageBuffer).1
          "eng").text = "en") ∧
    (E.detect (E.recognize (ImageService.preprocessImage E imageBuffer).1
        "eng").text = "en" →
      (ImageService.translateImage E imageBuffer "auto" toLang).1.ocrResult
        = E.recognize (ImageService.preprocessImage E imageBuffer).1 "eng") ∧
    (E.detect (E.recognize (ImageService.preprocessImage E imageBuffer).1
        "eng").text ≠ "en" →
      (ImageService.translateImage E imageBuffer "auto" toLang).1.ocrResult
        = E.recognize (ImageService.preprocessImage E imageBuffer).1
            (E.detect (E.recognize (ImageService.preprocessImage E imageBuffer).1
              "eng").text) ∧
      (ImageService.translateImage E imageBuffer "auto" toLang).2.countP
        ImageService.Event.isRecognize = 2) := by
  obtain ⟨hocr, hcount⟩ := translateImage_proj E imageBuffer "auto" toLang
  have hres := resolveOcr_auto_nonempty E
    (ImageService.preprocessImage E imageBuffer).1 ht
  by_cases hdet : E.detect (E.recognize (ImageService.preprocessImage E imageBuffer).1
      "eng").text = "en"
  · rw [if_pos hdet] at hres
    rw [hres] at hocr hcount
    refine ⟨?_, fun _ => hocr, fun hne => absurd hdet hne⟩
    rw [hcount]
    simp [hdet, List.countP_cons, ImageService.Event.isRecognize]
  · rw [if_neg hdet] at hres
    rw [hres] at hocr hcount
    refine ⟨?_, fun heq => absurd heq hdet, fun _ => ⟨hocr, ?_⟩⟩
    · rw [hcount]
      simp only [List.countP_cons, List.countP_nil,
        ImageService.Event.isRecognize]
      simp [hdet]
    · rw [hcount]
      simp [List.countP_cons, ImageService.Event.isRecognize]

/-- C1 witness: a concrete instance of `C1_auto_reuse` — non-empty
transcription detected as `"en"`: the quick result is reused and
recognition runs exactly once. -/
theorem C1_auto_reuse_witness :
    ((ImageService.translateImage
        (mkEngines 100 50
          (fun lang => { text := "hi", blocks := [], confidence := 1, language := lang })
          "en" some)
        0 "auto" "es").2.countP ImageService.Event.isRecognize = 1) ∧
    (ImageService.translateImage
        (mkEngines 100 50
          (fun lang => { text := "hi", blocks := [], confidence := 1, language := lang })
          "en" some)
        0 "auto" "es").1.ocrResult
      = { text := "hi", blocks := [], confidence := 1, language := "eng" } :=
  ⟨(C1_auto_reuse
      (mkEngines 100 50
        (fun lang => { text := "hi", blocks := [], confidence := 1, language := lang })
        "en" some)
      0 "es" (by decide)).1.mpr rfl,
   (C1_auto_reuse
      (mkEngines 100 50
        (fun lang => { text := "hi", blocks := [], confidence := 1, language := lang })
        "en" some)
      0 "es" (by decide)).2.1 rfl⟩

/-- C5: for every request where the OCR result contains zero blocks,
`translateImage` returns the original unscaled input buffer (not the
preprocessed one), the OCR result, and an empty translations list; no
translation call and no rendering pass occurs (the function returns
normally — this case is not an error). -/
theorem C5_empty_blocks (E : ImageService.Engines) (imageBuffer : Buffer)
    (fromLang toLang : String)
    (h : (ImageService.translateImage E imageBuffer fromLang toLang).1.ocrResult.blocks
      = []) :
    (ImageService.translateImage E imageBuffer fromLang toLang).1.image = imageBuffer ∧
    (ImageService.translateImage E imageBuffer fromLang toLang).1.translations = [] ∧
    (ImageService.translateImage E imageBuffer fromLang toLang).2.countP
      ImageService.Event.isTranslateCall = 0 ∧
    (ImageService.translateImage E imageBuffer fromLang toLang).2.countP
      ImageService.Event.isRender = 0 := by
  have hocr : (ImageService.translateImage E imageBuffer fromLang toLang).1.ocrResult
      = (ImageService.resolveOcr E (ImageService.preprocessImage E imageBuffer).1
          fromLang).2.1 :=
    (translateImage_proj E imageBuffer fromLang toLang).1
  have hb : (ImageService.resolveOcr E (ImageService.preprocessImage E imageBuffer).1
      fromLang).2.1.blocks = [] := by
    rw [← hocr]
    exact h
  have hz1 : (ImageService.resolveOcr E (ImageService.preprocessImage E imageBuffer).1
      fromLang).2.2.countP ImageService.Event.isTranslateCall = 0 := by
    rw [List.countP_eq_zero]
    intro e he
    obtain ⟨l, rfl⟩ := resolveOcr_events_mem E _ fromLang e he
    simp [ImageService.Event.isTranslateCall]
  have hz2 : (ImageService.resolveOcr E (ImageService.preprocessImage E imageBuffer).1
      fromLang).2.2.countP ImageService.Event.isRender = 0 := by
    rw [List.countP_eq_zero]
    intro e he
    obtain ⟨l, rfl⟩ := resolveOcr_events_mem E _ fromLang e he
    simp [ImageService.Event.isRender]
  refine ⟨?_, ?_, ?_, ?_⟩ <;>
    simp [ImageService.translateImage, hb, List.countP_cons, hz1, hz2,
      ImageService.Event.isTranslateCall, ImageService.Event.isRender]

/-- C5 witness: a concrete instance of `C5_empty_blocks` with a recognizer
that finds no blocks: the untouched input buffer `3` comes back with an
empty translations list, and neither the translator nor the renderer is
invoked. -/
theorem C5_empty_blocks_witness :
    (ImageService.translateImage
        (mkEngines 100 50
          (fun lang => { text := "", blocks := [], confidence := 1, language := lang })
          "en" some)
        3 "en" "es").1.image = 3 ∧
    (ImageService.translateImage
        (mkEngines 100 50
          (fun lang => { text := "", blocks := [], confidence := 1, language := lang })
          "en" some)
        3 "en" "es").1.translations = [] ∧
    (ImageService.translateImage
        (mkEngines 100 50
          (fun lang => { text := "", blocks := [], confidence := 1, language := lang })
          "en" some)
        3 "en" "es").2.countP ImageService.Event.isTranslateCall = 0 ∧
    (ImageService.translateImage
        (mkEngines 100 50
          (fun lang => { text := "", blocks := [], confidence := 1, language := lang })
          "en" some)
        3 "en" "es").2.countP ImageService.Event.isRender = 0 :=
  C5_empty_blocks
    (mkEngines 100 50
      (fun lang => { text := "", blocks := [], confidence := 1, language := lang })
      "en" some)
    3 "en" "es" (by rfl)

theorem extractText_events_mem (E : ImageService.Engines) (buf : Buffer)
    (lang : String) :
    ∀ e ∈ (ImageService.extractTextFromImage E buf lang).2,
      ∃ l, e = ImageService.Event.recognize buf l := by
  intro e he
  simp only [ImageService.extractTextFromImage] at he
  by_cases h1 : lang = "auto"
  · rw [if_pos h1] at he
    by_cases h2 : jsTrim (E.recognize buf "eng").text ≠ ""
    · rw [if_pos h2] at he
      simp only [List.mem_append, List.mem_singleton] at he
      rcases he with he | he
      · exact ⟨"eng", he⟩
      · exact ⟨E.detect (E.recognize buf "eng").text, he⟩
    · rw [if_neg h2] at he
      simp only [List.mem_append, List.mem_singleton] at he
      rcases he with he | he
      · exact ⟨"eng", he⟩
      · exact ⟨"en", he⟩
  · rw [if_neg h1] at he
    simp only [List.nil_append, List.mem_singleton] at he
    exact ⟨lang, he⟩

/-- C10: `extractTextFromImage` never invokes the preprocessor — every
recognition pass it performs runs on the raw input buffer at its original
size, and the returned result is the recognition output for that raw
buffer; by contrast, every recognition pass performed by `translateImage`
runs on the preprocessed (possibly downscaled) buffer. -/
theorem C10_extract_raw_buffer (E : ImageService.Engines) (imageBuffer : Buffer)
    (lang fromLang toLang : String) :
    (∀ e ∈ (ImageService.extractTextFromImage E imageBuffer lang).2,
      e.isPreprocess = false) ∧
    (∀ b l, ImageService.Event.recognize b l
        ∈ (ImageService.extractTextFromImage E imageBuffer lang).2 →
      b = imageBuffer) ∧
    (∀ b l, ImageService.Event.recognize b l
        ∈ (ImageService.translateImage E imageBuffer fromLang toLang).2 →
      b = (ImageService.preprocessImage E imageBuffer).1) := by
  refine ⟨?_, ?_, ?_⟩
  · intro e he
    obtain ⟨l, rfl⟩ := extractText_events_mem E imageBuffer lang e he
    rfl
  · intro b l hm
    obtain ⟨l', hl⟩ := extractText_events_mem E imageBuffer lang _ hm
    injection hl with hb hl'
  · intro b l hm
    by_cases hb : (ImageService.resolveOcr E
        (ImageService.preprocessImage E imageBuffer).1 fromLang).2.1.blocks = []
    · simp only [ImageService.translateImage, hb, if_true, reduceIte,
        List.mem_cons] at hm
      rcases hm with hm | hm
      · exact absurd hm (by simp)
      · obtain ⟨l', hl⟩ := resolveOcr_events_mem E _ fromLang _ hm
        injection hl with hb' hl'
    · simp only [ImageService.translateImage, hb, if_false, reduceIte,
        List.mem_append, List.mem_cons, List.mem_singleton] at hm
      rcases hm with ((hm | hm) | hm) | hm
      · exact absurd hm (by simp)
      · obtain ⟨l', hl⟩ := resolveOcr_events_mem E _ fromLang _ hm
        injection hl with hb' hl'
      · obtain ⟨bl, hbl, he⟩ := List.mem_map.mp hm
        exact absurd he (by simp)
      · exact absurd hm (by simp)

/-- C10 witness: a concrete instance of `C10_extract_raw_buffer` on buffer
`5` with a 3000-wide image (so `translateImage`'s preprocessing actually
resizes): the extract-side trace's first event is a recognition on the raw
buffer `5`, not a preprocessing pass. -/
theorem C10_extract_raw_buffer_witness :
    (ImageService.Event.recognize 5 "eng").isPreprocess = false ∧
    (5 : Buffer) = 5 :=
  ⟨(C10_extract_raw_buffer
      (mkEngines 3000 1000
        (fun lang => { text := "hi", blocks := [], confidence := 1, language := lang })
        "en" some)
      5 "auto" "auto" "es").1 (ImageService.Event.recognize 5 "eng") (by decide),
   (C10_extract_raw_buffer
      (mkEngines 3000 1000
        (fun lang => { text := "hi", blocks := [], confidence := 1, language := lang })
        "en" some)
      5 "auto" "auto" "es").2.1 5 "eng" (by decide)⟩

/-- A concrete text block used to instantiate the batch-translator
theorems. -/
def wBlock (t : String) : Tesseract.TextBlock :=
  { text := t, confidence := 1, bbox := ⟨0, 0, 10, 10⟩,
    baseline := ⟨0, 10, 10, 10⟩, fontSize := 12, lineHeight := 10 }

/-- C2 witness: the spec's `[A, B, C]` scenario — the translator fails on
`B` only; the batch result has length 3 and its middle element carries `B`'s
original text with unchanged geometry. -/
theorem C2_batch_failure_isolation_witness :
    (ImageService.translateBlocksParallel
        (mkEngines 100 50
          (fun lang => { text := "", blocks := [], confidence := 1, language := lang })
          "en" (fun t => if t = "B" then none else some (t ++ "!")))
        [wBlock "A", wBlock "B", wBlock "C"] "en" "es" 1).length = 3 ∧
    (ImageService.translateBlocksParallel
        (mkEngines 100 50
          (fun lang => { text := "", blocks := [], confidence := 1, language := lang })
          "en" (fun t => if t = "B" then none else some (t ++ "!")))
        [wBlock "A", wBlock "B", wBlock "C"] "en" "es" 1)[1]?
      = some { toTextBlock := wBlock "B", translatedText := (wBlock "B").text } :=
  ⟨(C2_batch_failure_isolation
      (mkEngines 100 50
        (fun lang => { text := "", blocks := [], confidence := 1, language := lang })
        "en" (fun t => if t = "B" then none else some (t ++ "!")))
      [wBlock "A", wBlock "B", wBlock "C"] "en" "es" 1).1,
   (C2_batch_failure_isolation
      (mkEngines 100 50
        (fun lang => { text := "", blocks := [], confidence := 1, language := lang })
        "en" (fun t => if t = "B" then none else some (t ++ "!")))
      [wBlock "A", wBlock "B", wBlock "C"] "en" "es" 1).2 1 (wBlock "B") rfl rfl⟩

/-- C3 witness: a concrete instance of `C3_success_rescale` with
`scale = 2`: the successful block `A` is emitted with its geometry halved
and rounded, its text, confidence and baseline untouched. -/
theorem C3_success_rescale_witness :
    ∃ r : ImageService.TranslatedBlock,
      (ImageService.translateBlocksParallel
          (mkEngines 100 50
            (fun lang => { text := "", blocks := [], confidence := 1, language := lang })
            "en" (fun t => some (t ++ "!")))
          [wBlock "A"] "en" "es" 2)[0]? = some r ∧
      r.translatedText = "A" ++ "!" ∧ r.text = (wBlock "A").text ∧
      r.confidence = (wBlock "A").confidence ∧
      r.baseline = (wBlock "A").baseline ∧
      ((2 : ℚ) = 1 → r.toTextBlock = wBlock "A") ∧
      ((2 : ℚ) ≠ 1 →
        r.bbox.x0 = ((jsRound ((wBlock "A").bbox.x0 / 2) : ℤ) : ℚ) ∧
        r.bbox.y0 = ((jsRound ((wBlock "A").bbox.y0 / 2) : ℤ) : ℚ) ∧
        r.bbox.x1 = ((jsRound ((wBlock "A").bbox.x1 / 2) : ℤ) : ℚ) ∧
        r.bbox.y1 = ((jsRound ((wBlock "A").bbox.y1 / 2) : ℤ) : ℚ) ∧
        r.fontSize = ((jsRound ((wBlock "A").fontSize / 2) : ℤ) : ℚ) ∧
        r.lineHeight = ((jsRound ((wBlock "A").lineHeight / 2) : ℤ) : ℚ)) :=
  C3_success_rescale
    (mkEngines 100 50
      (fun lang => { text := "", blocks := [], confidence := 1, language := lang })
      "en" (fun t => some (t ++ "!")))
    [wBlock "A"] "en" "es" 2 0 (wBlock "A") ("A" ++ "!") rfl rfl

/-- C4 witness: a 100×50 image is passed through untouched with scale 1;
a 3000×1000 image is resized (here the stub resize bumps the buffer token)
with scale `2000/3000 = 2/3`. -/
theorem C4_preprocess_witness :
    ImageService.preprocessImage
      (mkEngines 100 50
        (fun lang => { text := "", blocks := [], confidence := 1, language := lang })
        "en" some) 7 = (7, 1) ∧
    ImageService.preprocessImage
      (mkEngines 3000 1000
        (fun lang => { text := "", blocks := [], confidence := 1, language := lang })
        "en" some) 7 = (8, 2/3) := by
  constructor
  · exact (C4_preprocess
      (mkEngines 100 50
        (fun lang => { text := "", blocks := [], confidence := 1, language := lang })
        "en" some) 7).1 (by norm_num [mkEngines])
  · have h := (C4_preprocess
      (mkEngines 3000 1000
        (fun lang => { text := "", blocks := [], confidence := 1, language := lang })
        "en" some) 7).2 (by norm_num [mkEngines])
    rw [h]
    have hmax : max (((mkEngines 3000 1000
        (fun lang => { text := "", blocks := [], confidence := 1, language := lang })
        "en" some).meta 7).1.getD 0)
        (((mkEngines 3000 1000
          (fun lang => { text := "", blocks := [], confidence := 1, language := lang })
          "en" some).meta 7).2.getD 0) = (3000 : ℚ) := by
      norm_num [mkEngines]
    rw [hmax]
    norm_num [mkEngines]
